import Mathlib

/-!
Verification development for the HandyLang front-end: a shallow embedding of
the tokenizer (`src/tokenizer.py`), the recursive-descent parser
(`src/parser.py`), the environment (`src/environment.py`) and the tree-walking
interpreter (`src/interpreter.py`), together with theorems settling the
specification claims about them.

Source texts are modelled as `List Char`.  The Python regex alternation of
`token_specification` is modelled as an ordered list of matchers, each tried at
the cursor, the first success winning — exactly the semantics of Python's `re`
alternation as used by `tokenize`.
-/

namespace HandyLang

/-- Decidable equality for `Except`, so concrete runs of the embedded
    functions can be checked by `decide`. -/
instance {ε α : Type} [DecidableEq ε] [DecidableEq α] : DecidableEq (Except ε α)
  | .ok a, .ok b =>
    if h : a = b then .isTrue (by rw [h])
    else .isFalse (by intro c; cases c; exact h rfl)
  | .ok _, .error _ => .isFalse (by intro h; cases h)
  | .error _, .ok _ => .isFalse (by intro h; cases h)
  | .error a, .error b =>
    if h : a = b then .isTrue (by rw [h])
    else .isFalse (by intro c; cases c; exact h rfl)

/-- Python exception values raised by the embedded code, tagged by their Python
    class and carrying the message string. -/
inductive PyErr where
  | runtimeError (msg : List Char)
  | syntaxError (msg : List Char)
  | valueError (msg : List Char)
  | nameError (msg : List Char)
  | notImplementedError (msg : List Char)
  | indexError (msg : List Char)
deriving DecidableEq, Repr

/-- ASCII decimal digit, the regex class `\d` on the ASCII source alphabet. -/
def isDigitC (c : Char) : Bool := decide (48 ≤ c.toNat ∧ c.toNat ≤ 57)

/-- ASCII upper-case letter `[A-Z]`. -/
def isUpperC (c : Char) : Bool := decide (65 ≤ c.toNat ∧ c.toNat ≤ 90)

/-- ASCII lower-case letter `[a-z]`. -/
def isLowerC (c : Char) : Bool := decide (97 ≤ c.toNat ∧ c.toNat ≤ 122)

/-- ASCII letter `[A-Za-z]`. -/
def isAlphaC (c : Char) : Bool := isUpperC c || isLowerC c

/-- Start character of the IDENT pattern, `[A-Za-z_]`. -/
def isIdentStartC (c : Char) : Bool := isAlphaC c || c == '_'

/-- Word character `[A-Za-z0-9_]` (regex `\w`), the continuation class of
    IDENT and the class underlying the `\b` assertion. -/
def isWordC (c : Char) : Bool := isAlphaC c || isDigitC c || c == '_'

/-- Index of the first occurrence of `"""` in a character list (the lazy tail
    of the BLOCK_COMMENT pattern stops at the first closing triple quote). -/
def findTriple : List Char → Option Nat
  | '"' :: '"' :: '"' :: _ => some 0
  | _ :: rest => (findTriple rest).map (· + 1)
  | [] => none

/-- BLOCK_COMMENT pattern `"""(.|\n)*?"""`: an opening `"""` followed lazily by
    anything up to the first closing `"""`.  Returns the match length. -/
def matchBlockComment (rest : List Char) : Option Nat :=
  if ['"', '"', '"'].isPrefixOf rest then
    (findTriple (rest.drop 3)).map (· + 6)
  else none

/-- COMMENT pattern `#.*`: a hash and then greedily everything up to (not
    including) the next newline. -/
def matchComment (rest : List Char) : Option Nat :=
  if rest.head? = some '#' then
    some (((rest.drop 1).takeWhile (fun c => !(c == '\n'))).length + 1)
  else none

/-- NUMBER pattern `\d+(\.\d+)?`: greedy digits, then optionally a dot and at
    least one more digit. -/
def matchNumber (rest : List Char) : Option Nat :=
  let ds := (rest.takeWhile isDigitC).length
  if ds = 0 then none
  else
    let r2 := rest.drop ds
    let fs := ((r2.drop 1).takeWhile isDigitC).length
    if r2.head? = some '.' ∧ 0 < fs then some (ds + 1 + fs)
    else some ds

/-- Scan of a string body after the opening quote: a plain `"` closes it, a
    backslash escapes the next character (which must not be a newline), any
    other character (newlines included) is consumed.  Returns the number of
    characters consumed including the closing quote.  This is the
    deterministic reading of `([^"\\]|\\.)*"` — the regex has no real choice
    points, so greedy matching and this scan agree. -/
def strScan : List Char → Option Nat
  | [] => none
  | '"' :: _ => some 1
  | '\\' :: rest =>
    match rest with
    | [] => none
    | c :: r => if c = '\n' then none else (strScan r).map (· + 2)
  | _ :: rest => (strScan rest).map (· + 1)

/-- STRING pattern `"([^"\\]|\\.)*"`. -/
def matchString (rest : List Char) : Option Nat :=
  if rest.head? = some '"' then (strScan (rest.drop 1)).map (· + 1) else none

/-- Word-boundary test on the left of the cursor: true at the start of input or
    after a non-word character (the matched text always begins with a word
    character here, so `\b` reduces to this). -/
def wordBoundary (prev : Option Char) : Bool :=
  match prev with
  | none => true
  | some c => !(isWordC c)

/-- Word-boundary test on the right of a candidate match: true at end of input
    or before a non-word character. -/
def boundaryAfter (rest : List Char) : Bool :=
  match rest with
  | [] => true
  | c :: _ => !(isWordC c)

/-- BOOL pattern `\b(True|False)\b`. -/
def matchBool (rest : List Char) (prev : Option Char) : Option Nat :=
  if wordBoundary prev then
    if "True".data.isPrefixOf rest && boundaryAfter (rest.drop 4) then some 4
    else if "False".data.isPrefixOf rest && boundaryAfter (rest.drop 5) then some 5
    else none
  else none

/-- NULL pattern `\bnull\b`. -/
def matchNull (rest : List Char) (prev : Option Char) : Option Nat :=
  if wordBoundary prev then
    if "null".data.isPrefixOf rest && boundaryAfter (rest.drop 4) then some 4
    else none
  else none

/-- IDENT pattern `[A-Za-z_][A-Za-z0-9_]*`. -/
def matchIdent (rest : List Char) : Option Nat :=
  match rest.head? with
  | some c =>
    if isIdentStartC c then some (((rest.drop 1).takeWhile isWordC).length + 1)
    else none
  | none => none

/-- Literal pattern: the given characters verbatim. -/
def matchExact (p : List Char) (rest : List Char) : Option Nat :=
  if p.isPrefixOf rest then some p.length else none

/-- OP pattern `==|!=|>=|<=|//|[\+\-\*/%<>]`, alternatives in order. -/
def matchOp (rest : List Char) : Option Nat :=
  if ['=', '='].isPrefixOf rest then some 2
  else if ['!', '='].isPrefixOf rest then some 2
  else if ['>', '='].isPrefixOf rest then some 2
  else if ['<', '='].isPrefixOf rest then some 2
  else if ['/', '/'].isPrefixOf rest then some 2
  else
    match rest.head? with
    | some c => if c ∈ ['+', '-', '*', '/', '%', '<', '>'] then some 1 else none
    | none => none

/-- SKIP pattern `[ \t]+`. -/
def matchSkip (rest : List Char) : Option Nat :=
  let n := (rest.takeWhile (fun c => c == ' ' || c == '\t')).length
  if n = 0 then none else some n

/-- MISMATCH pattern `.`: any single character except a newline. -/
def matchMismatch (rest : List Char) : Option Nat :=
  match rest.head? with
  | some c => if c = '\n' then none else some 1
  | none => none

/-- Names of the entries of `token_specification`, in their source order. -/
inductive RawKind where
  | blockComment | comment | number | stringLit | boolLit | nullLit | ident
  | atSign | assign | op | arrow | colon | comma | semicolon
  | lparen | rparen | lbrace | rbrace | lbracket | rbracket
  | newline | skip | mismatch
deriving DecidableEq, Repr

/-- Ordered alternation of `token_specification`: the first pattern that
    matches at the cursor wins, exactly as in the compiled `tok_regex`. -/
def matchFirst (rest : List Char) (prev : Option Char) : Option (RawKind × Nat) :=
  match matchBlockComment rest with
  | some n => some (.blockComment, n)
  | none =>
  match matchComment rest with
  | some n => some (.comment, n)
  | none =>
  match matchNumber rest with
  | some n => some (.number, n)
  | none =>
  match matchString rest with
  | some n => some (.stringLit, n)
  | none =>
  match matchBool rest prev with
  | some n => some (.boolLit, n)
  | none =>
  match matchNull rest prev with
  | some n => some (.nullLit, n)
  | none =>
  match matchIdent rest with
  | some n => some (.ident, n)
  | none =>
  match matchExact ['@'] rest with
  | some n => some (.atSign, n)
  | none =>
  match matchExact ['='] rest with
  | some n => some (.assign, n)
  | none =>
  match matchOp rest with
  | some n => some (.op, n)
  | none =>
  match matchExact ['-', '>'] rest with
  | some n => some (.arrow, n)
  | none =>
  match matchExact [':'] rest with
  | some n => some (.colon, n)
  | none =>
  match matchExact [','] rest with
  | some n => some (.comma, n)
  | none =>
  match matchExact [';'] rest with
  | some n => some (.semicolon, n)
  | none =>
  match matchExact ['('] rest with
  | some n => some (.lparen, n)
  | none =>
  match matchExact [')'] rest with
  | some n => some (.rparen, n)
  | none =>
  match matchExact ['\x7b'] rest with
  | some n => some (.lbrace, n)
  | none =>
  match matchExact ['\x7d'] rest with
  | some n => some (.rbrace, n)
  | none =>
  match matchExact ['['] rest with
  | some n => some (.lbracket, n)
  | none =>
  match matchExact [']'] rest with
  | some n => some (.rbracket, n)
  | none =>
  match matchExact ['\n'] rest with
  | some n => some (.newline, n)
  | none =>
  match matchSkip rest with
  | some n => some (.skip, n)
  | none =>
  match matchMismatch rest with
  | some n => some (.mismatch, n)
  | none => none

/-- The compiled `get_token` applied at offset `pos`: matches the alternation
    at that exact position; the character before the cursor feeds the `\b`
    assertions. -/
def getToken (code : List Char) (pos : Nat) : Option (RawKind × Nat) :=
  matchFirst (code.drop pos) (if pos = 0 then none else code[pos - 1]?)

/-- Token kinds observable in the output of `tokenize` (field `type` of the
    token dictionaries). -/
inductive TokType where
  | NUMBER | STRING | BOOL | NULL | IDENT | KEYWORD
  | AT | ASSIGN | OP | ARROW | COLON | COMMA | SEMICOLON
  | LPAREN | RPAREN | LBRACE | RBRACE | LBRACKET | RBRACKET
deriving DecidableEq, Repr

/-- A token dictionary: type, matched text, 1-based line and column of the
    match start, and the full text of the source line holding the token. -/
structure Tok where
  type : TokType
  value : List Char
  line : Nat
  col : Nat
  line_text : List Char
deriving DecidableEq, Repr

/-- The fixed reserved-word set `keywords` of the tokenizer. -/
def keywords : List (List Char) :=
  ["var".data, "const".data, "def".data, "macro".data, "comptime".data,
   "type".data, "extends".data, "if".data, "else".data, "for".data, "in".data,
   "match".data, "try".data, "except".data, "raise".data, "return".data,
   "test".data, "assertEqual".data, "assertNotEqual".data, "assertTrue".data,
   "assertFalse".data, "assertRaises".data, "print".data, "null".data,
   "True".data, "False".data, "number".data, "float".data, "int".data,
   "string".data, "bool".data, "list".data, "dict".data]

/-- Token type emitted for a raw pattern kind (IDENT is promoted to KEYWORD
    when the text is reserved); `none` for the non-emitting kinds.  This is
    the classification table realized branch-by-branch in `tokenizeAux`. -/
def emitType : RawKind → List Char → Option TokType
  | .number, _ => some .NUMBER
  | .stringLit, _ => some .STRING
  | .boolLit, _ => some .BOOL
  | .nullLit, _ => some .NULL
  | .ident, v => some (if v ∈ keywords then .KEYWORD else .IDENT)
  | .atSign, _ => some .AT
  | .assign, _ => some .ASSIGN
  | .op, _ => some .OP
  | .arrow, _ => some .ARROW
  | .colon, _ => some .COLON
  | .comma, _ => some .COMMA
  | .semicolon, _ => some .SEMICOLON
  | .lparen, _ => some .LPAREN
  | .rparen, _ => some .RPAREN
  | .lbrace, _ => some .LBRACE
  | .rbrace, _ => some .RBRACE
  | .lbracket, _ => some .LBRACKET
  | .rbracket, _ => some .RBRACKET
  | _, _ => none

/-- Split a character list at newlines, Python `code.split('\n')`: always one
    more piece than there are newlines, empty pieces kept. -/
def splitNl : List Char → List (List Char)
  | [] => [[]]
  | c :: rest =>
    if c = '\n' then [] :: splitNl rest
    else
      match splitNl rest with
      | [] => [[c]]
      | l :: ls => (c :: l) :: ls

/-- Index of the last occurrence of `c`, Python `value.rfind(c)` (as an
    `Option` instead of `-1`). -/
def lastIdxOf (l : List Char) (c : Char) : Option Nat :=
  match l with
  | [] => none
  | a :: rest =>
    match lastIdxOf rest c with
    | some i => some (i + 1)
    | none => if a = c then some 0 else none

/-- Decimal rendering of a natural number, Python `str(n)`. -/
def natRepr (n : Nat) : List Char := (Nat.repr n).data

/-- A run of `n` spaces. -/
def spacesL (n : Nat) : List Char := List.replicate n ' '

/-- Message of the `RuntimeError` raised on a MISMATCH character, built exactly
    as in `tokenize`: the offending character, its line and column, the source
    line prefixed by its line number, and a caret line padded with
    `col + len(str(line)) + 1` spaces. -/
def mismatchMsg (value : List Char) (line col : Nat) (line_text : List Char) : List Char :=
  "Unexpected character '".data ++ value ++ "' at line ".data ++ natRepr line
    ++ ", column ".data ++ natRepr col
    ++ "\n".data ++ natRepr line ++ ": ".data ++ line_text
    ++ "\n".data ++ spacesL (col + (natRepr line).length + 1) ++ "^".data

/-- Main loop of `tokenize`, one step per regex match.  `fuel` only bounds the
    recursion; every match consumes at least one character, so the initial
    fuel `code.length + 1` is never exhausted before the scan ends. -/
def tokenizeAux (code : List Char) (codeLines : List (List Char)) :
    Nat → Nat → Nat → Nat → List Tok → Except PyErr (List Tok)
  | 0, _, _, _, acc => .ok acc.reverse
  | fuel + 1, pos, line, lineStart, acc =>
    match getToken code pos with
    | none => .ok acc.reverse
    | some (kind, n) =>
      let value := (code.drop pos).take n
      let col := pos - lineStart + 1
      let line_text := codeLines.getD (line - 1) []
      match kind with
      | .newline => tokenizeAux code codeLines fuel (pos + n) (line + 1) (pos + n) acc
      | .comment => tokenizeAux code codeLines fuel (pos + n) line lineStart acc
      | .skip => tokenizeAux code codeLines fuel (pos + n) line lineStart acc
      | .blockComment =>
        let nls := value.count '\n'
        if 0 < nls then
          match lastIdxOf value '\n' with
          | some i => tokenizeAux code codeLines fuel (pos + n) (line + nls) (pos + i + 1) acc
          | none => tokenizeAux code codeLines fuel (pos + n) (line + nls) lineStart acc
        else tokenizeAux code codeLines fuel (pos + n) line lineStart acc
      | .mismatch => .error (.runtimeError (mismatchMsg value line col line_text))
      | .number =>
        tokenizeAux code codeLines fuel (pos + n) line lineStart
          (⟨.NUMBER, value, line, col, line_text⟩ :: acc)
      | .stringLit =>
        tokenizeAux code codeLines fuel (pos + n) line lineStart
          (⟨.STRING, value, line, col, line_text⟩ :: acc)
      | .boolLit =>
        tokenizeAux code codeLines fuel (pos + n) line lineStart
          (⟨.BOOL, value, line, col, line_text⟩ :: acc)
      | .nullLit =>
        tokenizeAux code codeLines fuel (pos + n) line lineStart
          (⟨.NULL, value, line, col, line_text⟩ :: acc)
      | .ident =>
        tokenizeAux code codeLines fuel (pos + n) line lineStart
          (⟨if value ∈ keywords then .KEYWORD else .IDENT, value, line, col, line_text⟩ :: acc)
      | .atSign =>
        tokenizeAux code codeLines fuel (pos + n) line lineStart
          (⟨.AT, value, line, col, line_text⟩ :: acc)
      | .assign =>
        tokenizeAux code codeLines fuel (pos + n) line lineStart
          (⟨.ASSIGN, value, line, col, line_text⟩ :: acc)
      | .op =>
        tokenizeAux code codeLines fuel (pos + n) line lineStart
          (⟨.OP, value, line, col, line_text⟩ :: acc)
      | .arrow =>
        tokenizeAux code codeLines fuel (pos + n) line lineStart
          (⟨.ARROW, value, line, col, line_text⟩ :: acc)
      | .colon =>
        tokenizeAux code codeLines fuel (pos + n) line lineStart
          (⟨.COLON, value, line, col, line_text⟩ :: acc)
      | .comma =>
        tokenizeAux code codeLines fuel (pos + n) line lineStart
          (⟨.COMMA, value, line, col, line_text⟩ :: acc)
      | .semicolon =>
        tokenizeAux code codeLines fuel (pos + n) line lineStart
          (⟨.SEMICOLON, value, line, col, line_text⟩ :: acc)
      | .lparen =>
        tokenizeAux code codeLines fuel (pos + n) line lineStart
          (⟨.LPAREN, value, line, col, line_text⟩ :: acc)
      | .rparen =>
        tokenizeAux code codeLines fuel (pos + n) line lineStart
          (⟨.RPAREN, value, line, col, line_text⟩ :: acc)
      | .lbrace =>
        tokenizeAux code codeLines fuel (pos + n) line lineStart
          (⟨.LBRACE, value, line, col, line_text⟩ :: acc)
      | .rbrace =>
        tokenizeAux code codeLines fuel (pos + n) line lineStart
          (⟨.RBRACE, value, line, col, line_text⟩ :: acc)
      | .lbracket =>
        tokenizeAux code codeLines fuel (pos + n) line lineStart
          (⟨.LBRACKET, value, line, col, line_text⟩ :: acc)
      | .rbracket =>
        tokenizeAux code codeLines fuel (pos + n) line lineStart
          (⟨.RBRACKET, value, line, col, line_text⟩ :: acc)

/-- The tokenizer `tokenize(code)`: scans the whole input, returning the token
    list or the `RuntimeError` raised at the first unrecognized character. -/
def tokenize (code : List Char) : Except PyErr (List Tok) :=
  tokenizeAux code (splitNl code) (code.length + 1) 0 1 0 []

/-- AST nodes producible by the current parser (`ast_nodes.py` restricted to
    the variants `Parser` actually constructs; `Param` is inlined as a node so
    parameter lists are plain lists). -/
inductive Ast where
  | program (stmts : List Ast)
  | varDecl (name : List Char) (type_ : Option (List Char)) (value : Option Ast)
  | constDecl (name : List Char) (type_ : Option (List Char)) (value : Ast)
  | functionDef (name : List Char) (params : List Ast)
      (returnType : Option (List Char)) (body : Ast)
  | param (name : List Char) (type_ : Option (List Char)) (default : Option Ast)
  | block (stmts : List Ast)
  | functionCall (name : List Char) (args : List Ast)
  | literal (value : List Char)
  | identifier (name : List Char)
deriving Repr

/-- Rendering of a `TokType` as the Python token-type string, for error
    messages. -/
def tokTypeStr : TokType → List Char
  | .NUMBER => "NUMBER".data
  | .STRING => "STRING".data
  | .BOOL => "BOOL".data
  | .NULL => "NULL".data
  | .IDENT => "IDENT".data
  | .KEYWORD => "KEYWORD".data
  | .AT => "AT".data
  | .ASSIGN => "ASSIGN".data
  | .OP => "OP".data
  | .ARROW => "ARROW".data
  | .COLON => "COLON".data
  | .COMMA => "COMMA".data
  | .SEMICOLON => "SEMICOLON".data
  | .LPAREN => "LPAREN".data
  | .RPAREN => "RPAREN".data
  | .LBRACE => "LBRACE".data
  | .RBRACE => "RBRACE".data
  | .LBRACKET => "LBRACKET".data
  | .RBRACKET => "RBRACKET".data

/-- Type of the token at `pos`, `none` once past the end — the `'type': None`
    sentinel of `Parser.peek`. -/
def peekType (toks : List Tok) (pos : Nat) : Option TokType :=
  (toks[pos]?).map Tok.type

/-- Message layout of `Parser._report_error`: `filename:line:col: message`,
    and when the token's source line is non-empty, the line itself prefixed by
    its number plus a caret under the column. -/
def fmtReport (fn : List Char) (t : Tok) (message : List Char) : List Char :=
  let base := fn ++ ":".data ++ natRepr t.line ++ ":".data ++ natRepr t.col
    ++ ": ".data ++ message
  if t.line_text = [] then base
  else base ++ "\n\n".data ++ natRepr t.line ++ ": ".data ++ t.line_text
    ++ "\n".data ++ spacesL ((natRepr t.line).length + 2) ++ spacesL (t.col - 1)
    ++ "^".data

/-- The error built by `Parser._report_error` at parser position `pos`: past
    the end it falls back to the last token (`tokens[pos - 1]`, an IndexError
    when even that is out of range), otherwise it uses `tokens[pos]`; with no
    tokens at all only `filename: message` is reported. -/
def reportError (fn : List Char) (toks : List Tok) (pos : Nat) (message : List Char) : PyErr :=
  if toks.length ≤ pos ∧ 0 < pos then
    match toks[pos - 1]? with
    | some t => .syntaxError (fmtReport fn t message)
    | none => .indexError "list index out of range".data
  else
    match toks[pos]? with
    | some t => .syntaxError (fmtReport fn t message)
    | none => .syntaxError (fn ++ ": ".data ++ message)

/-- Test of `Parser.expect`: the token has the wanted kind and, when a value is
    demanded, the wanted text. -/
def tokMatches (t : Tok) (kind : TokType) (value : Option (List Char)) : Bool :=
  t.type == kind &&
    (match value with
     | some v => t.value == v
     | none => true)

/-- The `Expected …, got …` message of `Parser.expect` (`none` stands for the
    end-of-stream sentinel token). -/
def expectMsg (kind : TokType) (value : Option (List Char)) (t : Option Tok) : List Char :=
  "Expected ".data ++ tokTypeStr kind
    ++ (match value with
        | some v => " with value '".data ++ v ++ "'".data
        | none => [])
    ++ ", got ".data
    ++ (match t with
        | some t => tokTypeStr t.type ++ " with value '".data ++ t.value ++ "'".data
        | none => "None with value 'None'".data)

/-- `Parser.expect`: consume the current token (the position advances even on
    failure, before the error location is read), then fail unless it matches. -/
def expect (fn : List Char) (toks : List Tok) (pos : Nat) (kind : TokType)
    (value : Option (List Char)) : Except PyErr (Tok × Nat) :=
  match toks[pos]? with
  | some t =>
    if tokMatches t kind value then .ok (t, pos + 1)
    else .error (reportError fn toks (pos + 1) (expectMsg kind value (some t)))
  | none => .error (reportError fn toks (pos + 1) (expectMsg kind value none))

/-- `Parser.parse_expression`: a single-token primary — NUMBER and STRING give
    a `Literal`, IDENT an `Identifier`, anything else a located error (the
    position having already advanced past the offending token). -/
def parseExpression (fn : List Char) (toks : List Tok) (pos : Nat) :
    Except PyErr (Ast × Nat) :=
  match toks[pos]? with
  | some t =>
    match t.type with
    | .NUMBER => .ok (.literal t.value, pos + 1)
    | .STRING => .ok (.literal t.value, pos + 1)
    | .IDENT => .ok (.identifier t.value, pos + 1)
    | _ =>
      .error (reportError fn toks (pos + 1)
        ("Unexpected token in expression: ".data ++ tokTypeStr t.type
          ++ " with value '".data ++ t.value ++ "'".data))
  | none =>
    .error (reportError fn toks (pos + 1)
      "Unexpected token in expression: None with value 'None'".data)

/-- `Parser.parse_var_decl`: `'var' IDENT (':' TYPE)? ('=' Expression)?`. -/
def parseVarDecl (fn : List Char) (toks : List Tok) (pos : Nat) :
    Except PyErr (Ast × Nat) := do
  let (_, p1) ← expect fn toks pos .KEYWORD (some "var".data)
  let (nameTok, p2) ← expect fn toks p1 .IDENT none
  let (type_, p3) ←
    if peekType toks p2 = some .COLON then do
      let (tt, p) ← expect fn toks (p2 + 1) .KEYWORD none
      pure (some tt.value, p)
    else pure (none, p2)
  let (value, p4) ←
    if peekType toks p3 = some .ASSIGN then do
      let (v, p) ← parseExpression fn toks (p3 + 1)
      pure (some v, p)
    else pure (none, p3)
  pure (.varDecl nameTok.value type_ value, p4)

/-- `Parser.parse_const_decl`: `'const' IDENT (':' TYPE)? '=' Expression`. -/
def parseConstDecl (fn : List Char) (toks : List Tok) (pos : Nat) :
    Except PyErr (Ast × Nat) := do
  let (_, p1) ← expect fn toks pos .KEYWORD (some "const".data)
  let (nameTok, p2) ← expect fn toks p1 .IDENT none
  let (type_, p3) ←
    if peekType toks p2 = some .COLON then do
      let (tt, p) ← expect fn toks (p2 + 1) .KEYWORD none
      pure (some tt.value, p)
    else pure (none, p2)
  let (_, p4) ← expect fn toks p3 .ASSIGN none
  let (value, p5) ← parseExpression fn toks p4
  pure (.constDecl nameTok.value type_ value, p5)

/-- `Parser.parse_param_list`: parameters until the closing RPAREN, each
    `IDENT (':' TYPE)? ('=' Expression)?` with an optional trailing comma. -/
def parseParamList (fn : List Char) (toks : List Tok) :
    Nat → Nat → Except PyErr (List Ast × Nat)
  | 0, _ => .error (.syntaxError "recursion limit".data)
  | fuel + 1, pos =>
    if peekType toks pos = some .RPAREN then .ok ([], pos)
    else do
      let (nameTok, p1) ← expect fn toks pos .IDENT none
      let (ptype, p2) ←
        if peekType toks p1 = some .COLON then do
          let (tt, p) ← expect fn toks (p1 + 1) .KEYWORD none
          pure (some tt.value, p)
        else pure (none, p1)
      let (dflt, p3) ←
        if peekType toks p2 = some .ASSIGN then do
          let (v, p) ← parseExpression fn toks (p2 + 1)
          pure (some v, p)
        else pure (none, p2)
      let p4 := if peekType toks p3 = some .COMMA then p3 + 1 else p3
      let (rest, p5) ← parseParamList fn toks fuel p4
      pure (.param nameTok.value ptype dflt :: rest, p5)

/-- Argument loop of `Parser.parse_print_statement`: expressions until the
    closing RPAREN, each followed by an optional comma. -/
def parsePrintArgs (fn : List Char) (toks : List Tok) :
    Nat → Nat → Except PyErr (List Ast × Nat)
  | 0, _ => .error (.syntaxError "recursion limit".data)
  | fuel + 1, pos =>
    if peekType toks pos = some .RPAREN then .ok ([], pos)
    else do
      let (a, p1) ← parseExpression fn toks pos
      let p2 := if peekType toks p1 = some .COMMA then p1 + 1 else p1
      let (rest, p3) ← parsePrintArgs fn toks fuel p2
      pure (a :: rest, p3)

/-- `Parser.parse_print_statement`: `'print' '(' args ')'` as a
    `FunctionCall`. -/
def parsePrintStatement (fn : List Char) (toks : List Tok) (pos : Nat) :
    Except PyErr (Ast × Nat) := do
  let (_, p1) ← expect fn toks pos .KEYWORD (some "print".data)
  let (_, p2) ← expect fn toks p1 .LPAREN none
  let (args, p3) ← parsePrintArgs fn toks (toks.length + 1) p2
  let (_, p4) ← expect fn toks p3 .RPAREN none
  pure (.functionCall "print".data args, p4)

/-- Stub `Parser.parse_if_stmt`: reports a located error without consuming
    anything. -/
def parseIfStmt (fn : List Char) (toks : List Tok) (pos : Nat) :
    Except PyErr (Ast × Nat) :=
  .error (reportError fn toks pos "If statement parsing not yet implemented".data)

/-- Stub `Parser.parse_for_stmt`. -/
def parseForStmt (fn : List Char) (toks : List Tok) (pos : Nat) :
    Except PyErr (Ast × Nat) :=
  .error (reportError fn toks pos "For loop parsing not yet implemented".data)

/-- Stub `Parser.parse_match_stmt`. -/
def parseMatchStmt (fn : List Char) (toks : List Tok) (pos : Nat) :
    Except PyErr (Ast × Nat) :=
  .error (reportError fn toks pos "Match statement parsing not yet implemented".data)

/-- Stub `Parser.parse_return_stmt`. -/
def parseReturnStmt (fn : List Char) (toks : List Tok) (pos : Nat) :
    Except PyErr (Ast × Nat) :=
  .error (reportError fn toks pos "Return statement parsing not yet implemented".data)

/-- Stub `Parser.parse_raise_stmt`. -/
def parseRaiseStmt (fn : List Char) (toks : List Tok) (pos : Nat) :
    Except PyErr (Ast × Nat) :=
  .error (reportError fn toks pos "Raise statement parsing not yet implemented".data)

mutual

/-- `Parser.parse_statement`: dispatch on a leading keyword, defaulting to a
    bare expression statement. -/
def parseStatement : Nat → List Char → List Tok → Nat → Except PyErr (Ast × Nat)
  | 0, _, _, _ => .error (.syntaxError "recursion limit".data)
  | fuel + 1, fn, toks, pos =>
    match toks[pos]? with
    | some t =>
      if t.type = .KEYWORD then
        if t.value = "var".data then parseVarDecl fn toks pos
        else if t.value = "const".data then parseConstDecl fn toks pos
        else if t.value = "def".data then parseFunctionDef fuel fn toks pos
        else if t.value = "if".data then parseIfStmt fn toks pos
        else if t.value = "for".data then parseForStmt fn toks pos
        else if t.value = "match".data then parseMatchStmt fn toks pos
        else if t.value = "return".data then parseReturnStmt fn toks pos
        else if t.value = "raise".data then parseRaiseStmt fn toks pos
        else if t.value = "print".data then parsePrintStatement fn toks pos
        else parseExpression fn toks pos
      else parseExpression fn toks pos
    | none => parseExpression fn toks pos
termination_by structural fuel => fuel

/-- `Parser.parse_function_def`:
    `'def' IDENT '(' ParamList ')' ('->' TYPE)? Block`. -/
def parseFunctionDef : Nat → List Char → List Tok → Nat → Except PyErr (Ast × Nat)
  | 0, _, _, _ => .error (.syntaxError "recursion limit".data)
  | fuel + 1, fn, toks, pos => do
    let (_, p1) ← expect fn toks pos .KEYWORD (some "def".data)
    let (nameTok, p2) ← expect fn toks p1 .IDENT none
    let (_, p3) ← expect fn toks p2 .LPAREN none
    let (params, p4) ← parseParamList fn toks (toks.length + 1) p3
    let (_, p5) ← expect fn toks p4 .RPAREN none
    let (returnType, p6) ←
      if peekType toks p5 = some .ARROW then do
        let (tt, p) ← expect fn toks (p5 + 1) .KEYWORD none
        pure (some tt.value, p)
      else pure (none, p5)
    let (body, p7) ← parseBlock fuel fn toks p6
    pure (.functionDef nameTok.value params returnType body, p7)
termination_by structural fuel => fuel

/-- `Parser.parse_block`: `'{' Statement* '}'`. -/
def parseBlock : Nat → List Char → List Tok → Nat → Except PyErr (Ast × Nat)
  | 0, _, _, _ => .error (.syntaxError "recursion limit".data)
  | fuel + 1, fn, toks, pos => do
    let (_, p1) ← expect fn toks pos .LBRACE none
    let (stmts, p2) ← parseBlockStmts fuel fn toks p1
    let (_, p3) ← expect fn toks p2 .RBRACE none
    pure (.block stmts, p3)
termination_by structural fuel => fuel

/-- Statement loop of `Parser.parse_block`, running until an RBRACE is
    peeked. -/
def parseBlockStmts : Nat → List Char → List Tok → Nat → Except PyErr (List Ast × Nat)
  | 0, _, _, _ => .error (.syntaxError "recursion limit".data)
  | fuel + 1, fn, toks, pos =>
    if peekType toks pos = some .RBRACE then .ok ([], pos)
    else do
      let (s, p1) ← parseStatement fuel fn toks pos
      let (rest, p2) ← parseBlockStmts fuel fn toks p1
      pure (s :: rest, p2)
termination_by structural fuel => fuel

end

/-- Statement loop of `Parser.parse`, running while the peeked token type is
    truthy (i.e. while tokens remain). -/
def parseStmtsAux : Nat → List Char → List Tok → Nat → Except PyErr (List Ast × Nat)
  | 0, _, _, _ => .error (.syntaxError "recursion limit".data)
  | fuel + 1, fn, toks, pos =>
    match peekType toks pos with
    | none => .ok ([], pos)
    | some _ => do
      let (s, p1) ← parseStatement fuel fn toks pos
      let (rest, p2) ← parseStmtsAux fuel fn toks p1
      pure (s :: rest, p2)

/-- `Parser.parse`: the whole token stream as a `Program`.  The fuel only
    bounds recursion depth; every step consumes tokens, so it is never
    exhausted on any run that terminates in Python. -/
def parse (fn : List Char) (toks : List Tok) : Except PyErr Ast :=
  (parseStmtsAux (4 * toks.length + 8) fn toks 0).map fun r => .program r.1

/-- Runtime values of the interpreter.  `vNone` is Python's `None` (the result
    of evaluating a statement).  Floats are kept opaque as the decimal text
    they were produced from: the interpreter performs no float arithmetic and
    never compares floats, so this carries everything the code observes; the
    `0.0` produced by the default-value table is `vFloat "0.0"`. -/
inductive Value where
  | vNone
  | vInt (i : Int)
  | vFloat (text : List Char)
  | vStr (s : List Char)
deriving DecidableEq, Repr

/-- Lookup in a Python dict modelled as an association list with unique
    keys. -/
def lookupA (l : List (List Char × Value)) (k : List Char) : Option Value :=
  match l with
  | [] => none
  | (k', v) :: rest => if k' = k then some v else lookupA rest k

/-- Dict assignment `d[k] = v`: replace the existing binding or append a new
    one (insertion order preserved, as in a Python dict). -/
def assocSet (l : List (List Char × Value)) (k : List Char) (v : Value) :
    List (List Char × Value) :=
  match l with
  | [] => [(k, v)]
  | (k', v') :: rest =>
    if k' = k then (k, v) :: rest else (k', v') :: assocSet rest k v

/-- The `Environment`: the mutable `vars` table and the write-once `consts`
    table. -/
structure Env where
  vars : List (List Char × Value)
  consts : List (List Char × Value)
deriving DecidableEq, Repr

/-- The empty environment built by `Environment.__init__`. -/
def envEmpty : Env := ⟨[], []⟩

/-- `Environment.set_var`: unconditional assignment into `vars`. -/
def setVar (env : Env) (name : List Char) (v : Value) : Env :=
  { env with vars := assocSet env.vars name v }

/-- `Environment.get_var`: `vars` first, then `consts`, else a `NameError`
    naming the identifier. -/
def getVar (env : Env) (name : List Char) : Except PyErr Value :=
  match lookupA env.vars name with
  | some v => .ok v
  | none =>
    match lookupA env.consts name with
    | some v => .ok v
    | none => .error (.nameError ("Variable '".data ++ name ++ "' not defined".data))

/-- `Environment.set_const`: a `ValueError` when the name is already a
    constant, otherwise a fresh binding in `consts`. -/
def setConst (env : Env) (name : List Char) (v : Value) : Except PyErr Env :=
  if (lookupA env.consts name).isSome then
    .error (.valueError ("Constant '".data ++ name ++ "' already defined".data))
  else .ok { env with consts := assocSet env.consts name v }

/-- Value of a decimal digit string, Python `int(value)` on the tokenizer's
    NUMBER texts. -/
def digitsToInt (l : List Char) : Int :=
  l.foldl (fun acc c => acc * 10 + (c.toNat - 48)) 0

/-- `Interpreter.parse_literal_value`: quoted text becomes the string with the
    quotes stripped, text containing a dot a float, anything else an int. -/
def parseLiteralValue (v : List Char) : Value :=
  if v.head? = some '"' ∧ v.getLast? = some '"' then .vStr ((v.drop 1).dropLast)
  else if '.' ∈ v then .vFloat v
  else .vInt (digitsToInt v)

/-- `Interpreter.default_value`: the type-default table `int → 0`,
    `float → 0.0`, `string → ""`; any other type name — including the absent
    one, rendered `None` — raises a `ValueError`. -/
def defaultValue (type_ : Option (List Char)) : Except PyErr Value :=
  match type_ with
  | some t =>
    if t = "int".data then .ok (.vInt 0)
    else if t = "float".data then .ok (.vFloat "0.0".data)
    else if t = "string".data then .ok (.vStr [])
    else .error (.valueError ("No default value defined for type '".data ++ t ++ "'".data))
  | none =>
    .error (.valueError "No default value defined for type 'None'".data)

/-- Python class name of an AST node, for the `NotImplementedError` raised on
    unsupported node kinds. -/
def nodeClassName : Ast → List Char
  | .program _ => "<class 'src.ast_nodes.Program'>".data
  | .varDecl _ _ _ => "<class 'src.ast_nodes.VarDecl'>".data
  | .constDecl _ _ _ => "<class 'src.ast_nodes.ConstDecl'>".data
  | .functionDef _ _ _ _ => "<class 'src.ast_nodes.FunctionDef'>".data
  | .param _ _ _ => "<class 'src.ast_nodes.Param'>".data
  | .block _ => "<class 'src.ast_nodes.Block'>".data
  | .functionCall _ _ => "<class 'src.ast_nodes.FunctionCall'>".data
  | .literal _ => "<class 'src.ast_nodes.Literal'>".data
  | .identifier _ => "<class 'src.ast_nodes.Identifier'>".data

mutual

/-- `Interpreter.eval`: evaluates one node against the environment, returning
    the updated environment, the values printed (in order), and either the
    node's value (`vNone` for statements, as in Python) or the exception that
    escaped.  Effects performed before a failure are kept, as in Python. -/
def eval (env : Env) : Ast → Env × List Value × Except PyErr Value
  | .varDecl name type_ value =>
    let r := match value with
      | some vnode => eval env vnode
      | none => (env, [], defaultValue type_)
    match r with
    | (env1, out1, .ok v) => (setVar env1 name v, out1, .ok .vNone)
    | (env1, out1, .error e) => (env1, out1, .error e)
  | .constDecl name _ vnode =>
    match eval env vnode with
    | (env1, out1, .ok v) =>
      match setConst env1 name v with
      | .ok env2 => (env2, out1, .ok .vNone)
      | .error e => (env1, out1, .error e)
    | (env1, out1, .error e) => (env1, out1, .error e)
  | .functionCall name args =>
    if name = "print".data then
      match evalArgs env args with
      | (env1, out1, .ok _) => (env1, out1, .ok .vNone)
      | (env1, out1, .error e) => (env1, out1, .error e)
    else
      (env, [],
        .error (.notImplementedError
          ("Function '".data ++ name ++ "' not implemented".data)))
  | .literal v => (env, [], .ok (parseLiteralValue v))
  | .identifier n => (env, [], getVar env n)
  | other =>
    (env, [],
      .error (.notImplementedError
        ("Node type ".data ++ nodeClassName other ++ " not implemented yet".data)))
termination_by structural a => a

/-- Argument loop of the `print` call: evaluate and print each argument in
    order, stopping at the first failure (output already produced is kept). -/
def evalArgs (env : Env) : List Ast → Env × List Value × Except PyErr Unit
  | [] => (env, [], .ok ())
  | a :: rest =>
    match eval env a with
    | (env1, out1, .ok v) =>
      match evalArgs env1 rest with
      | (env2, out2, r) => (env2, out1 ++ [v] ++ out2, r)
    | (env1, out1, .error e) => (env1, out1, .error e)
termination_by structural l => l

end

/-- `Interpreter.run`: evaluate the top-level statements in order; the first
    escaping exception aborts the run, prior bindings and output remaining
    observable. -/
def runStmts (env : Env) : List Ast → Env × List Value × Option PyErr
  | [] => (env, [], none)
  | s :: rest =>
    match eval env s with
    | (env1, out1, .ok _) =>
      match runStmts env1 rest with
      | (env2, out2, r) => (env2, out1 ++ out2, r)
    | (env1, out1, .error e) => (env1, out1, some e)

/-- Substring containment: `needle` occurs contiguously inside `hay`. -/
def containsSub (needle hay : List Char) : Prop :=
  ∃ s t, hay = s ++ needle ++ t

theorem containsSub_intro (needle s t : List Char) :
    containsSub needle (s ++ needle ++ t) := ⟨s, t, rfl⟩

theorem containsSub_append_right (needle pre hay : List Char)
    (h : containsSub needle hay) : containsSub needle (pre ++ hay) := by
  obtain ⟨s, t, rfl⟩ := h
  exact ⟨pre ++ s, t, by simp⟩

theorem containsSub_append_left (needle hay post : List Char)
    (h : containsSub needle hay) : containsSub needle (hay ++ post) := by
  obtain ⟨s, t, rfl⟩ := h
  exact ⟨s, t ++ post, by simp⟩

/-- C5: identifier lookup reads the `variables` table before the `constants`
    table — a name bound in both resolves to the variable binding; the
    constants table is consulted only when the name is absent from variables;
    a name absent from both raises a `NameResolutionError` (Python
    `NameError`) naming the identifier. -/
theorem c5_get_var_order : ∀ (env : Env) (n : List Char),
    (∀ v, lookupA env.vars n = some v → getVar env n = .ok v) ∧
    (∀ w, lookupA env.vars n = none → lookupA env.consts n = some w →
      getVar env n = .ok w) ∧
    (lookupA env.vars n = none → lookupA env.consts n = none →
      getVar env n =
        .error (.nameError ("Variable '".data ++ n ++ "' not defined".data)) ∧
      containsSub n ("Variable '".data ++ n ++ "' not defined".data)) := by
  intro env n
  refine ⟨fun v hv => ?_, fun w hv hc => ?_, fun hv hc => ⟨?_, ?_⟩⟩
  · simp [getVar, hv]
  · simp [getVar, hv, hc]
  · simp [getVar, hv, hc]
  · exact ⟨"Variable '".data, "' not defined".data, rfl⟩

theorem c5_get_var_order_witness :
    getVar ⟨[("x".data, .vInt 2)], [("x".data, .vInt 1)]⟩ "x".data = .ok (.vInt 2) ∧
    getVar ⟨[], [("y".data, .vInt 1)]⟩ "y".data = .ok (.vInt 1) ∧
    (getVar envEmpty "z".data =
      .error (.nameError ("Variable '".data ++ "z".data ++ "' not defined".data)) ∧
     containsSub "z".data ("Variable '".data ++ "z".data ++ "' not defined".data)) :=
  ⟨(c5_get_var_order ⟨[("x".data, .vInt 2)], [("x".data, .vInt 1)]⟩ "x".data).1 _ (by decide),
   (c5_get_var_order ⟨[], [("y".data, .vInt 1)]⟩ "y".data).2.1 _ (by decide) (by decide),
   (c5_get_var_order envEmpty "z".data).2.2 (by decide) (by decide)⟩

/-- C6: tokenizing `var x = $` raises a `LexicalError` (Python
    `RuntimeError`) whose message contains the offending character `$`, the
    substring `line 1`, the full source line, and a caret line whose padding is
    digits-of-line-number + 2 (the fixed `: ` prefix) + column − 1 spaces. -/
theorem c6_lexical_error : ∃ msg,
    tokenize "var x = $".data = .error (.runtimeError msg) ∧
    msg = "Unexpected character '$' at line 1, column 9".data
      ++ "\n1: var x = $".data
      ++ "\n".data ++ spacesL ((natRepr 1).length + 2 + (9 - 1)) ++ "^".data ∧
    containsSub "$".data msg ∧
    containsSub "line 1".data msg ∧
    containsSub "var x = $".data msg ∧
    containsSub ("\n".data ++ spacesL ((natRepr 1).length + 2 + (9 - 1)) ++ "^".data) msg := by
  refine ⟨"Unexpected character '$' at line 1, column 9".data
      ++ "\n1: var x = $".data
      ++ "\n".data ++ spacesL ((natRepr 1).length + 2 + (9 - 1)) ++ "^".data,
    by decide, rfl, ?_, ?_, ?_, ?_⟩
  · exact ⟨"Unexpected character '".data,
      "' at line 1, column 9\n1: var x = $\n".data ++ spacesL 11 ++ "^".data, by decide⟩
  · exact ⟨"Unexpected character '$' at ".data,
      ", column 9\n1: var x = $\n".data ++ spacesL 11 ++ "^".data, by decide⟩
  · exact ⟨"Unexpected character '$' at line 1, column 9\n1: ".data,
      "\n".data ++ spacesL 11 ++ "^".data, by decide⟩
  · exact ⟨"Unexpected character '$' at line 1, column 9\n1: var x = $".data,
      [], by decide⟩

/-- C3: running `const x = 1` then `const x = 2` parses to two `ConstDecl`
    statements; evaluating them fails on the second with a
    `DefinitionConflictError` (Python `ValueError`) naming `x`, and the
    constants table afterwards still maps `x` to `1` — the first binding
    remains observable, with no rollback and no overwrite. -/
theorem c3_const_redeclaration :
    (tokenize "const x = 1\nconst x = 2".data).bind (parse "test.hdy".data) =
      .ok (.program [.constDecl "x".data none (.literal "1".data),
                     .constDecl "x".data none (.literal "2".data)]) ∧
    runStmts envEmpty [.constDecl "x".data none (.literal "1".data),
                       .constDecl "x".data none (.literal "2".data)] =
      (⟨[], [("x".data, .vInt 1)]⟩, [],
        some (.valueError "Constant 'x' already defined".data)) ∧
    lookupA (Env.consts ⟨[], [("x".data, .vInt 1)]⟩) "x".data = some (.vInt 1) ∧
    containsSub "x".data "Constant 'x' already defined".data :=
  ⟨rfl, by decide, by decide,
   ⟨"Constant '".data, "' already defined".data, by decide⟩⟩

/-- C4: a `VarDecl` without initializer draws its value from the type-default
    table `int → 0`, `float → 0.0`, `string → ""`: `var x: int` then
    `print(x)` binds `x = 0` and prints `0`; `var x` with no declared type
    fails with a `ValueError` and binds nothing; every type name outside the
    table fails with the same error shape. -/
theorem c4_default_values :
    (tokenize "var x: int\nprint(x)".data).bind (parse "test.hdy".data) =
      .ok (.program [.varDecl "x".data (some "int".data) none,
                     .functionCall "print".data [.identifier "x".data]]) ∧
    runStmts envEmpty [.varDecl "x".data (some "int".data) none,
                       .functionCall "print".data [.identifier "x".data]] =
      (⟨[("x".data, .vInt 0)], []⟩, [.vInt 0], none) ∧
    (tokenize "var x\nprint(x)".data).bind (parse "test.hdy".data) =
      .ok (.program [.varDecl "x".data none none,
                     .functionCall "print".data [.identifier "x".data]]) ∧
    runStmts envEmpty [.varDecl "x".data none none,
                       .functionCall "print".data [.identifier "x".data]] =
      (envEmpty, [], some (.valueError "No default value defined for type 'None'".data)) ∧
    defaultValue (some "int".data) = .ok (.vInt 0) ∧
    defaultValue (some "float".data) = .ok (.vFloat "0.0".data) ∧
    defaultValue (some "string".data) = .ok (.vStr []) ∧
    (∀ t : List Char, t ≠ "int".data → t ≠ "float".data → t ≠ "string".data →
      defaultValue (some t) =
        .error (.valueError ("No default value defined for type '".data ++ t ++ "'".data))) := by
  refine ⟨rfl, by decide, rfl, by decide, by decide, by decide, by decide,
    fun t h1 h2 h3 => ?_⟩
  simp [defaultValue, h1, h2, h3]

theorem c4_default_values_witness :
    defaultValue (some "bool".data) =
      .error (.valueError ("No default value defined for type '".data
        ++ "bool".data ++ "'".data)) :=
  c4_default_values.2.2.2.2.2.2.2 "bool".data (by decide) (by decide) (by decide)

/-- C1 evaluation: `def f() -> int { }` does NOT parse to a `FunctionDef` —
    the `->` lexes as two OP tokens (the OP pattern precedes ARROW and its
    character class contains `-`), the parser's ARROW check never fires, and
    `parse_block` then fails expecting an LBRACE. -/
theorem c1_return_type_syntax_fails :
    (tokenize "def f() -> int \x7b \x7d".data).map
        (fun ts => ts.map (fun t => (t.type, t.value))) =
      .ok [(.KEYWORD, "def".data), (.IDENT, "f".data), (.LPAREN, "(".data),
           (.RPAREN, ")".data), (.OP, "-".data), (.OP, ">".data),
           (.KEYWORD, "int".data), (.LBRACE, "\x7b".data), (.RBRACE, "\x7d".data)] ∧
    (tokenize "def f() -> int \x7b \x7d".data).bind (parse "test.hdy".data) =
      .error (.syntaxError
        ("test.hdy:1:10: Expected LBRACE, got OP with value '-'".data
          ++ "\n\n".data ++ "1: def f() -> int \x7b \x7d".data
          ++ "\n".data ++ spacesL (1 + 2) ++ spacesL (10 - 1) ++ "^".data)) :=
  ⟨by decide, rfl⟩

/-- C2 counterexample: `True` is in the keyword set, yet tokenizing it alone
    yields a BOOL token, not a KEYWORD token — the BOOL pattern is checked
    before the identifier pattern that feeds keyword promotion. -/
theorem c2_counterexample :
    tokenize "True".data = .ok [⟨.BOOL, "True".data, 1, 1, "True".data⟩] ∧
    "True".data ∈ keywords ∧ TokType.BOOL ≠ TokType.KEYWORD := by
  decide

/-- C7 counterexample: after the two-line block comment in
    `"""<nl>"""<nl>x` (starting line 1, one embedded newline) the first token
    emitted is `x` with line 3, not the claimed 1 + 1 = 2 — a newline between
    the comment and the token advances the line counter further. -/
theorem c7_counterexample :
    tokenize "\"\"\"\n\"\"\"\nx".data =
      .ok [⟨.IDENT, "x".data, 3, 1, "x".data⟩] ∧
    (3 : Nat) ≠ 1 + 1 := by
  decide

/-- C10: when `expect` fails on a mismatched token, the position has already
    advanced past it, so the reported location is the token after the
    mismatched one whenever one exists; only when the mismatched token was the
    last of the stream does the report fall back to that last token. -/
theorem c10_expect_error_location :
    ∀ (fn : List Char) (toks : List Tok) (pos : Nat) (kind : TokType)
      (value : Option (List Char)) (t : Tok),
      toks[pos]? = some t →
      tokMatches t kind value = false →
      (∀ t', toks[pos + 1]? = some t' →
        expect fn toks pos kind value =
          .error (.syntaxError (fmtReport fn t' (expectMsg kind value (some t))))) ∧
      (pos + 1 = toks.length →
        expect fn toks pos kind value =
          .error (.syntaxError (fmtReport fn t (expectMsg kind value (some t))))) := by
  intro fn toks pos kind value t h1 h2
  constructor
  · intro t' h3
    have hlt : pos + 1 < toks.length := (List.getElem?_eq_some_iff.mp h3).1
    simp [expect, h1, h2, reportError, h3, Nat.not_le.mpr hlt]
  · intro h3
    simp [expect, h1, h2, reportError, ← h3, Nat.add_sub_cancel]

theorem c10_expect_error_location_witness :
    expect "test.hdy".data
        [⟨.ASSIGN, "=".data, 1, 5, "var = 10".data⟩,
         ⟨.NUMBER, "10".data, 1, 7, "var = 10".data⟩] 0 .IDENT none =
      .error (.syntaxError (fmtReport "test.hdy".data
        ⟨.NUMBER, "10".data, 1, 7, "var = 10".data⟩
        (expectMsg .IDENT none (some ⟨.ASSIGN, "=".data, 1, 5, "var = 10".data⟩)))) :=
  (c10_expect_error_location "test.hdy".data
    [⟨.ASSIGN, "=".data, 1, 5, "var = 10".data⟩,
     ⟨.NUMBER, "10".data, 1, 7, "var = 10".data⟩] 0 .IDENT none
    ⟨.ASSIGN, "=".data, 1, 5, "var = 10".data⟩ rfl (by decide)).1
    ⟨.NUMBER, "10".data, 1, 7, "var = 10".data⟩ rfl

theorem containsSub_fmtReport (fn : List Char) (t : Tok) (needle m : List Char)
    (h : containsSub needle m) : containsSub needle (fmtReport fn t m) := by
  have hbase : containsSub needle
      (fn ++ ":".data ++ natRepr t.line ++ ":".data ++ natRepr t.col
        ++ ": ".data ++ m) := by
    obtain ⟨s, u, rfl⟩ := h
    exact ⟨fn ++ ":".data ++ natRepr t.line ++ ":".data ++ natRepr t.col
      ++ ": ".data ++ s, u, by simp⟩
  unfold fmtReport
  split
  · exact hbase
  · refine containsSub_append_left _ _ _ ?_
    refine containsSub_append_left _ _ _ ?_
    refine containsSub_append_left _ _ _ ?_
    refine containsSub_append_left _ _ _ ?_
    refine containsSub_append_left _ _ _ ?_
    refine containsSub_append_left _ _ _ ?_
    refine containsSub_append_left _ _ _ ?_
    exact containsSub_append_left _ _ _ hbase

theorem except_bind_error {ε α β : Type} (e : ε) (f : α → Except ε β) :
    (Except.error e >>= f : Except ε β) = .error e := rfl

theorem except_map_error {ε α β : Type} (e : ε) (g : α → β) :
    ((Except.error e : Except ε α).map g) = .error e := rfl

theorem parse_head_error (fn : List Char) (t : Tok) (rest : List Tok) (e : PyErr)
    (h : parseStatement (4 * (t :: rest).length + 7) fn (t :: rest) 0 = .error e) :
    parse fn (t :: rest) = .error e := by
  unfold parse
  rw [show 4 * (t :: rest).length + 8 = (4 * (t :: rest).length + 7) + 1 from rfl]
  simp only [List.length_cons] at h
  simp only [parseStmtsAux, peekType, List.getElem?_cons_zero, Option.map, h,
    except_bind_error, except_map_error, List.length_cons]

/-- C8: a statement whose first token is the keyword `if`, `for`, `match`,
    `return`, or `raise` makes `Parser.parse` fail with a located SyntaxError
    carrying a `not yet implemented` diagnostic, built from that very token's
    position (nothing was consumed and no AST node was built). -/
theorem c8_stub_statements :
    ∀ (fn : List Char) (t : Tok) (rest : List Tok),
      t.type = .KEYWORD →
      ((t.value = "if".data →
        parse fn (t :: rest) = .error (.syntaxError
          (fmtReport fn t "If statement parsing not yet implemented".data)) ∧
        containsSub "not yet implemented".data
          (fmtReport fn t "If statement parsing not yet implemented".data)) ∧
       (t.value = "for".data →
        parse fn (t :: rest) = .error (.syntaxError
          (fmtReport fn t "For loop parsing not yet implemented".data)) ∧
        containsSub "not yet implemented".data
          (fmtReport fn t "For loop parsing not yet implemented".data)) ∧
       (t.value = "match".data →
        parse fn (t :: rest) = .error (.syntaxError
          (fmtReport fn t "Match statement parsing not yet implemented".data)) ∧
        containsSub "not yet implemented".data
          (fmtReport fn t "Match statement parsing not yet implemented".data)) ∧
       (t.value = "return".data →
        parse fn (t :: rest) = .error (.syntaxError
          (fmtReport fn t "Return statement parsing not yet implemented".data)) ∧
        containsSub "not yet implemented".data
          (fmtReport fn t "Return statement parsing not yet implemented".data)) ∧
       (t.value = "raise".data →
        parse fn (t :: rest) = .error (.syntaxError
          (fmtReport fn t "Raise statement parsing not yet implemented".data)) ∧
        containsSub "not yet implemented".data
          (fmtReport fn t "Raise statement parsing not yet implemented".data))) := by
  intro fn t rest ht
  have hrep : ∀ msg : List Char, reportError fn (t :: rest) 0 msg =
      .syntaxError (fmtReport fn t msg) := by
    intro msg
    simp [reportError]
  refine ⟨fun hv => ⟨?_, ?_⟩, fun hv => ⟨?_, ?_⟩, fun hv => ⟨?_, ?_⟩,
    fun hv => ⟨?_, ?_⟩, fun hv => ⟨?_, ?_⟩⟩
  · apply parse_head_error
    rw [show 4 * (t :: rest).length + 7 = (4 * (t :: rest).length + 6) + 1 from rfl]
    rw [← hrep]
    simp +decide [parseStatement, ht, hv, parseIfStmt]
  · exact containsSub_fmtReport _ _ _ _
      ⟨"If statement parsing ".data, [], by decide⟩
  · apply parse_head_error
    rw [show 4 * (t :: rest).length + 7 = (4 * (t :: rest).length + 6) + 1 from rfl]
    rw [← hrep]
    simp +decide [parseStatement, ht, hv, parseForStmt]
  · exact containsSub_fmtReport _ _ _ _
      ⟨"For loop parsing ".data, [], by decide⟩
  · apply parse_head_error
    rw [show 4 * (t :: rest).length + 7 = (4 * (t :: rest).length + 6) + 1 from rfl]
    rw [← hrep]
    simp +decide [parseStatement, ht, hv, parseMatchStmt]
  · exact containsSub_fmtReport _ _ _ _
      ⟨"Match statement parsing ".data, [], by decide⟩
  · apply parse_head_error
    rw [show 4 * (t :: rest).length + 7 = (4 * (t :: rest).length + 6) + 1 from rfl]
    rw [← hrep]
    simp +decide [parseStatement, ht, hv, parseReturnStmt]
  · exact containsSub_fmtReport _ _ _ _
      ⟨"Return statement parsing ".data, [], by decide⟩
  · apply parse_head_error
    rw [show 4 * (t :: rest).length + 7 = (4 * (t :: rest).length + 6) + 1 from rfl]
    rw [← hrep]
    simp +decide [parseStatement, ht, hv, parseRaiseStmt]
  · exact containsSub_fmtReport _ _ _ _
      ⟨"Raise statement parsing ".data, [], by decide⟩

theorem c8_stub_statements_witness :
    parse "test.hdy".data [⟨.KEYWORD, "if".data, 1, 1, "if x".data⟩] =
      .error (.syntaxError
        (fmtReport "test.hdy".data ⟨.KEYWORD, "if".data, 1, 1, "if x".data⟩
          "If statement parsing not yet implemented".data)) ∧
    containsSub "not yet implemented".data
      (fmtReport "test.hdy".data ⟨.KEYWORD, "if".data, 1, 1, "if x".data⟩
        "If statement parsing not yet implemented".data) :=
  (c8_stub_statements "test.hdy".data ⟨.KEYWORD, "if".data, 1, 1, "if x".data⟩
    [] rfl).1 rfl

theorem matchFirst_ne_arrow (rest : List Char) (prev : Option Char) (n : Nat) :
    matchFirst rest prev ≠ some (.arrow, n) := by
  intro h
  unfold matchFirst at h
  rcases h1 : matchBlockComment rest with _ | k <;> simp [h1] at h
  rcases h2 : matchComment rest with _ | k <;> simp [h2] at h
  rcases h3 : matchNumber rest with _ | k <;> simp [h3] at h
  rcases h4 : matchString rest with _ | k <;> simp [h4] at h
  rcases h5 : matchBool rest prev with _ | k <;> simp [h5] at h
  rcases h6 : matchNull rest prev with _ | k <;> simp [h6] at h
  rcases h7 : matchIdent rest with _ | k <;> simp [h7] at h
  rcases h8 : matchExact ['@'] rest with _ | k <;> simp [h8] at h
  rcases h9 : matchExact ['='] rest with _ | k <;> simp [h9] at h
  rcases h10 : matchOp rest with _ | k <;> simp [h10] at h
  rcases h11 : matchExact ['-', '>'] rest with _ | k <;> simp [h11] at h
  · -- no further pattern can produce `.arrow`
    rcases h12 : matchExact [':'] rest with _ | k <;> simp [h12] at h
    rcases h13 : matchExact [','] rest with _ | k <;> simp [h13] at h
    rcases h14 : matchExact [';'] rest with _ | k <;> simp [h14] at h
    rcases h15 : matchExact ['('] rest with _ | k <;> simp [h15] at h
    rcases h16 : matchExact [')'] rest with _ | k <;> simp [h16] at h
    rcases h17 : matchExact ['\x7b'] rest with _ | k <;> simp [h17] at h
    rcases h18 : matchExact ['\x7d'] rest with _ | k <;> simp [h18] at h
    rcases h19 : matchExact ['['] rest with _ | k <;> simp [h19] at h
    rcases h20 : matchExact [']'] rest with _ | k <;> simp [h20] at h
    rcases h21 : matchExact ['\n'] rest with _ | k <;> simp [h21] at h
    rcases h22 : matchSkip rest with _ | k <;> simp [h22] at h
    rcases h23 : matchMismatch rest with _ | k <;> simp [h23] at h
  · -- the ARROW pattern matched, so `rest` begins `"->"`, but then the OP
    -- pattern would already have matched `-` — contradiction with `h10`.
    have hp : ['-', '>'] <+: rest := by
      by_cases hpre : (['-', '>'].isPrefixOf rest) = true
      · exact List.isPrefixOf_iff_prefix.mp hpre
      · simp [matchExact, hpre] at h11
    obtain ⟨u, hu⟩ := hp
    subst hu
    rw [show (['-', '>'] ++ u : List Char) = '-' :: '>' :: u from rfl] at h10
    rw [show matchOp ('-' :: '>' :: u) = some 1 from rfl] at h10
    exact absurd h10 (by simp)

theorem tokenizeAux_no_arrow : ∀ (fuel : Nat) (code : List Char)
    (cl : List (List Char)) (pos line ls : Nat) (acc toks : List Tok),
    (∀ t ∈ acc, t.type ≠ .ARROW) →
    tokenizeAux code cl fuel pos line ls acc = .ok toks →
    ∀ t ∈ toks, t.type ≠ .ARROW := by
  intro fuel
  induction fuel with
  | zero =>
    intro code cl pos line ls acc toks hacc h
    simp only [tokenizeAux, Except.ok.injEq] at h
    subst h
    intro t ht
    exact hacc t (List.mem_reverse.mp ht)
  | succ f ih =>
    intro code cl pos line ls acc toks hacc h
    simp only [tokenizeAux] at h
    rcases hg : getToken code pos with _ | ⟨kind, m⟩ <;> simp only [hg] at h
    · simp only [Except.ok.injEq] at h
      subst h
      intro t ht
      exact hacc t (List.mem_reverse.mp ht)
    · split at h
      -- the branches of the `kind` match, in order; `heq` names `kind = …`
      case h_1 => exact ih _ _ _ _ _ _ _ hacc h          -- newline
      case h_2 => exact ih _ _ _ _ _ _ _ hacc h          -- comment
      case h_3 => exact ih _ _ _ _ _ _ _ hacc h          -- skip
      case h_4 =>                                        -- block comment
        split at h
        · split at h
          · exact ih _ _ _ _ _ _ _ hacc h
          · exact ih _ _ _ _ _ _ _ hacc h
        · exact ih _ _ _ _ _ _ _ hacc h
      case h_5 => exact absurd h (by simp)               -- mismatch
      case h_10 =>                                       -- ident
        refine ih _ _ _ _ _ _ _ ?_ h
        intro t ht
        rcases List.mem_cons.mp ht with rfl | ht
        · show (if _ ∈ keywords then TokType.KEYWORD else TokType.IDENT) ≠ .ARROW
          split <;> decide
        · exact hacc t ht
      case h_14 =>                                       -- arrow: unreachable
        exact absurd hg (matchFirst_ne_arrow _ _ _)
      all_goals
        refine ih _ _ _ _ _ _ _ ?_ h
        intro t ht
        rcases List.mem_cons.mp ht with rfl | ht
        · simp
        · exact hacc t ht

/-- C9: no input ever produces an ARROW token — the OP pattern precedes ARROW
    in the alternation and its character class contains `-`, so `->` always
    lexes as an OP `-` followed by an OP `>`. -/
theorem c9_no_arrow_tokens :
    (∀ (code : List Char) (toks : List Tok), tokenize code = .ok toks →
      ∀ t ∈ toks, t.type ≠ .ARROW) ∧
    tokenize "->".data = .ok
      [⟨.OP, "-".data, 1, 1, "->".data⟩, ⟨.OP, ">".data, 1, 2, "->".data⟩] := by
  refine ⟨fun code toks h =>
    tokenizeAux_no_arrow _ _ _ _ _ _ _ _ (by simp) h, by decide⟩

theorem c9_no_arrow_tokens_witness :
    (⟨.OP, "-".data, 1, 1, "->".data⟩ : Tok).type ≠ .ARROW :=
  c9_no_arrow_tokens.1 "->".data
    [⟨.OP, "-".data, 1, 1, "->".data⟩, ⟨.OP, ">".data, 1, 2, "->".data⟩]
    (by decide) ⟨.OP, "-".data, 1, 1, "->".data⟩ (by simp)

/-- C7 (amended): processing a multi-line block comment adds its embedded
    newline count to the line counter and relocates the column origin to just
    after the comment's last newline; a token matched immediately after the
    comment is therefore emitted with line = the comment's starting line plus
    its newline count, and column = its offset from the character following
    the comment's last newline, plus 1. -/
theorem c7_block_comment_relocation :
    ∀ (code : List Char) (codeLines : List (List Char))
      (fuel pos line lineStart : Nat) (acc : List Tok)
      (n k i n2 : Nat) (kind2 : RawKind) (tt : TokType),
      getToken code pos = some (.blockComment, n) →
      ((code.drop pos).take n).count '\n' = k →
      0 < k →
      lastIdxOf ((code.drop pos).take n) '\n' = some i →
      getToken code (pos + n) = some (kind2, n2) →
      emitType kind2 ((code.drop (pos + n)).take n2) = some tt →
      tokenizeAux code codeLines (fuel + 2) pos line lineStart acc =
        tokenizeAux code codeLines fuel (pos + n + n2) (line + k) (pos + i + 1)
          (⟨tt, (code.drop (pos + n)).take n2, line + k,
            (pos + n) - (pos + i + 1) + 1,
            codeLines.getD (line + k - 1) []⟩ :: acc) := by
  intro code cl fuel pos line ls acc n k i n2 kind2 tt hg hk hkpos hlast hg2 hemit
  have h1 : tokenizeAux code cl (fuel + 2) pos line ls acc =
      tokenizeAux code cl (fuel + 1) (pos + n) (line + k) (pos + i + 1) acc := by
    rw [show fuel + 2 = (fuel + 1) + 1 from rfl]
    simp only [tokenizeAux, hg]
    simp [hk, hkpos, hlast]
  rw [h1]
  simp only [tokenizeAux, hg2]
  cases kind2 <;> simp_all [emitType]

theorem c7_block_comment_relocation_witness :
    tokenizeAux "\"\"\"a\nb\"\"\"x".data (splitNl "\"\"\"a\nb\"\"\"x".data)
        2 0 1 0 [] =
      tokenizeAux "\"\"\"a\nb\"\"\"x".data (splitNl "\"\"\"a\nb\"\"\"x".data)
        0 10 2 5 [⟨.IDENT, "x".data, 2, 5, "b\"\"\"x".data⟩] :=
  c7_block_comment_relocation "\"\"\"a\nb\"\"\"x".data
    (splitNl "\"\"\"a\nb\"\"\"x".data) 0 0 1 0 [] 9 1 4 1 .ident .IDENT
    (by decide) (by decide) (by decide) (by decide) (by decide) (by decide)

theorem identStart_not_digit (c : Char) (h : isIdentStartC c = true) :
    isDigitC c = false := by
  simp only [isIdentStartC, isAlphaC, isUpperC, isLowerC, Bool.or_eq_true,
    decide_eq_true_eq, beq_iff_eq] at h
  rcases h with (h | h) | h
  · simp only [isDigitC, decide_eq_false_iff_not, not_and, not_le]
    omega
  · simp only [isDigitC, decide_eq_false_iff_not, not_and, not_le]
    omega
  · subst h
    decide

theorem identStart_isWordC (c : Char) (h : isIdentStartC c = true) :
    isWordC c = true := by
  simp only [isIdentStartC, Bool.or_eq_true] at h
  simp only [isWordC, Bool.or_eq_true]
  tauto

theorem wordC_ne (x c : Char) (h : isWordC x = true) (hc : isWordC c = false) :
    x ≠ c := by
  intro e
  subst e
  rw [h] at hc
  exact absurd hc (by decide)

theorem splitNl_no_nl (l : List Char) (h : ∀ x ∈ l, x ≠ '\n') :
    splitNl l = [l] := by
  induction l with
  | nil => rfl
  | cons c cs ih =>
    have hc : ¬(c = '\n') := h c (List.mem_cons_self c cs)
    simp only [splitNl]
    rw [if_neg hc, ih (fun x hx => h x (List.mem_cons_of_mem _ hx))]

theorem matchBool_nil (prev : Option Char) : matchBool [] prev = none := by
  unfold matchBool
  split
  · rfl
  · rfl

theorem matchNull_nil (prev : Option Char) : matchNull [] prev = none := by
  unfold matchNull
  split
  · rfl
  · rfl

theorem matchFirst_nil (prev : Option Char) : matchFirst [] prev = none := by
  simp [matchFirst, matchBlockComment, matchComment, matchNumber, matchString,
    matchBool_nil, matchNull_nil, matchIdent, matchExact, matchOp, matchSkip,
    matchMismatch]

/-- Classification of the first regex match on a valid identifier that is not
    a reserved word: every earlier pattern fails and IDENT consumes the whole
    text. -/
theorem getToken_ident (c : Char) (cs : List Char)
    (h1 : isIdentStartC c = true) (h2 : ∀ x ∈ cs, isWordC x = true)
    (h3 : (c :: cs) ∉ keywords) :
    getToken (c :: cs) 0 = some (.ident, cs.length + 1) := by
  have hdg : isDigitC c = false := identStart_not_digit c h1
  have hne : ∀ d : Char, isIdentStartC d = false → ¬(c = d) := by
    intro d hd0 he
    rw [he, hd0] at h1
    exact absurd h1 (by decide)
  have hq : ¬(c = '"') := hne '"' (by decide)
  have hq2 : (('"' : Char) == c) = false := by
    rw [beq_eq_false_iff_ne]
    exact fun e => hq e.symm
  have hBC : matchBlockComment (c :: cs) = none := by
    simp [matchBlockComment, List.isPrefixOf_cons₂, hq2]
  have hCm : matchComment (c :: cs) = none := by
    simp [matchComment, hne '#' (by decide)]
  have hNum : matchNumber (c :: cs) = none := by
    simp [matchNumber, List.takeWhile_cons, hdg]
  have hStr : matchString (c :: cs) = none := by
    simp [matchString, hq]
  have hBool : matchBool (c :: cs) none = none := by
    simp only [matchBool, wordBoundary, if_true]
    by_cases hT : ("True".data.isPrefixOf (c :: cs)) = true
    · obtain ⟨u, hu⟩ := List.isPrefixOf_iff_prefix.mp hT
      have hu' : 'T' :: 'r' :: 'u' :: 'e' :: u = c :: cs := hu
      injection hu' with e1 e2
      subst e1
      subst e2
      cases u with
      | nil => exact absurd (by decide) h3
      | cons d u' =>
        have hdw : isWordC d = true := h2 d (by simp)
        have hba : boundaryAfter (d :: u') = false := by
          simp [boundaryAfter, hdw]
        simp [hT, hba, List.isPrefixOf_cons₂]
    · by_cases hF : ("False".data.isPrefixOf (c :: cs)) = true
      · obtain ⟨u, hu⟩ := List.isPrefixOf_iff_prefix.mp hF
        have hu' : 'F' :: 'a' :: 'l' :: 's' :: 'e' :: u = c :: cs := hu
        injection hu' with e1 e2
        subst e1
        subst e2
        cases u with
        | nil => exact absurd (by decide) h3
        | cons d u' =>
          have hdw : isWordC d = true := h2 d (by simp)
          have hba : boundaryAfter (d :: u') = false := by
            simp [boundaryAfter, hdw]
          simp [hT, hF, hba]
      · simp [hT, hF]
  have hNull : matchNull (c :: cs) none = none := by
    simp only [matchNull, wordBoundary, if_true]
    by_cases hN : ("null".data.isPrefixOf (c :: cs)) = true
    · obtain ⟨u, hu⟩ := List.isPrefixOf_iff_prefix.mp hN
      have hu' : 'n' :: 'u' :: 'l' :: 'l' :: u = c :: cs := hu
      injection hu' with e1 e2
      subst e1
      subst e2
      cases u with
      | nil => exact absurd (by decide) h3
      | cons d u' =>
        have hdw : isWordC d = true := h2 d (by simp)
        have hba : boundaryAfter (d :: u') = false := by
          simp [boundaryAfter, hdw]
        simp [hN, hba]
    · simp [hN]
  have hId : matchIdent (c :: cs) = some (cs.length + 1) := by
    simp [matchIdent, h1, List.takeWhile_eq_self_iff.mpr h2]
  show matchFirst ((c :: cs).drop 0)
      (if (0 : Nat) = 0 then none else (c :: cs)[0 - 1]?) = _
  rw [if_pos rfl]
  simp only [List.drop_zero]
  simp only [matchFirst, hBC, hCm, hNum, hStr, hBool, hNull, hId]

/-- C2 (amended): every reserved word other than `True`, `False`, and `null`
    tokenizes alone to exactly one KEYWORD token carrying the word verbatim;
    `True` and `False` give exactly one BOOL token and `null` one NULL token
    (their dedicated patterns run before the identifier pattern); every other
    valid identifier gives exactly one IDENT token. -/
theorem c2_keyword_and_ident_classification :
    (∀ w ∈ keywords, w ∉ [("True".data : List Char), "False".data, "null".data] →
      tokenize w = .ok [⟨.KEYWORD, w, 1, 1, w⟩]) ∧
    tokenize "True".data = .ok [⟨.BOOL, "True".data, 1, 1, "True".data⟩] ∧
    tokenize "False".data = .ok [⟨.BOOL, "False".data, 1, 1, "False".data⟩] ∧
    tokenize "null".data = .ok [⟨.NULL, "null".data, 1, 1, "null".data⟩] ∧
    (∀ (c : Char) (cs : List Char),
      isIdentStartC c = true →
      (∀ x ∈ cs, isWordC x = true) →
      (c :: cs) ∉ keywords →
      tokenize (c :: cs) = .ok [⟨.IDENT, c :: cs, 1, 1, c :: cs⟩]) := by
  refine ⟨by decide, by decide, by decide, by decide, ?_⟩
  intro c cs h1 h2 h3
  have hg := getToken_ident c cs h1 h2 h3
  have hnl : ∀ x ∈ (c :: cs), x ≠ '\n' := by
    intro x hx
    rcases List.mem_cons.mp hx with rfl | hx
    · exact wordC_ne x '\n' (identStart_isWordC x h1) (by decide)
    · exact wordC_ne x '\n' (h2 x hx) (by decide)
  have hsp : splitNl (c :: cs) = [c :: cs] := splitNl_no_nl _ hnl
  have hg2 : getToken (c :: cs) (cs.length + 1) = none := by
    show matchFirst ((c :: cs).drop (cs.length + 1)) _ = none
    rw [show (c :: cs).drop (cs.length + 1) = cs.drop cs.length from rfl,
      List.drop_length]
    exact matchFirst_nil _
  unfold tokenize
  rw [hsp, show (c :: cs).length + 1 = (cs.length + 1) + 1 from by simp]
  simp only [tokenizeAux, hg, hg2]
  simp [hg2, h3, List.take_succ_cons, List.take_length]

theorem c2_keyword_and_ident_classification_witness :
    tokenize "var".data = .ok [⟨.KEYWORD, "var".data, 1, 1, "var".data⟩] ∧
    tokenize "hello".data = .ok [⟨.IDENT, "hello".data, 1, 1, "hello".data⟩] :=
  ⟨c2_keyword_and_ident_classification.1 "var".data (by decide) (by decide),
   c2_keyword_and_ident_classification.2.2.2.2 'h' "ello".data
     (by decide) (by decide) (by decide)⟩

end HandyLang
